import Mathlib

/-!
Shallow embedding of the timeline-app authentication subsystem.

Stateful TypeScript services are modelled as pure functions that take the
persistent store as an argument and return the updated store together with
the result.  Thrown `HttpException`s become `Except AppError` values; the
Prisma `$transaction` wrapper becomes an explicit rollback-on-error
combinator.  Timestamps are naturals counting milliseconds (matching JS
`Date.getTime()`).  JavaScript truthiness of optional strings / numbers is
modelled explicitly (`none` and `some ""` / `some 0` are falsy).
-/

/-- Error taxonomy: NestJS exception classes, carrying the message string. -/
inductive AppError where
  | unauthorized (msg : String)
  | forbidden (msg : String)
  | notFound (msg : String)
  | badRequest (msg : String)
  | conflict (msg : String)
  | dbError (code : String)
  deriving Repr, DecidableEq

/-- A row of the Prisma `RefreshToken` model (id/createdAt omitted; the
`token` column is `@unique`). -/
structure RTRecord where
  token : String
  userId : Nat
  expiresAt : Nat
  isRevoked : Bool
  deriving Repr, DecidableEq

/-- The `RefreshToken` table. -/
abbrev RTStore := List RTRecord

/-- A row of the Prisma `User` model (fields the auth flows touch). -/
structure UserRec where
  id : Nat
  email : String
  username : String
  passwordHash : String
  deriving Repr, DecidableEq

/-- A row of the Prisma `PasswordResetToken` model (`token` is `@unique`). -/
structure PRRecord where
  userId : Nat
  token : String
  expiresAt : Nat
  deriving Repr, DecidableEq

/-- JavaScript truthiness of an optional string: `undefined` and `""` are
falsy. -/
def truthyStr : Option String → Bool
  | none => false
  | some s => !(s == "")

/-- JavaScript `a || b` on optional strings (used for
`configService.get(...) || default`). -/
def jsOrStr (x : Option String) (d : String) : String :=
  match x with
  | none => d
  | some s => if s == "" then d else s

/-- JavaScript `a || b` on optional numbers: `undefined` and `0` are falsy. -/
def jsOrNat (x : Option Nat) (d : Nat) : Nat :=
  match x with
  | none => d
  | some n => if n == 0 then d else n

/-- JavaScript `a || b` keeping the option (used for
`user.userId || user.sub || user.id` in the roles guard). -/
def jsOrOpt (x y : Option Nat) : Option Nat :=
  match x with
  | none => y
  | some n => if n == 0 then y else some n

/-- `parseInt` of a digit string (the regex group `\d+`). -/
def digitsToNat (cs : List Char) : Nat :=
  cs.foldl (fun a c => a * 10 + (c.toNat - 48)) 0

/-- The `switch (unit)` table of `parseJwtExpirationTime`; `none` for a
character the regex class `[smhdwy]` does not contain. -/
def unitSeconds : Char → Option Nat
  | 's' => some 1
  | 'm' => some 60
  | 'h' => some (60 * 60)
  | 'd' => some (60 * 60 * 24)
  | 'w' => some (60 * 60 * 24 * 7)
  | 'y' => some (60 * 60 * 24 * 365)
  | _ => none

/-- `RefreshTokenService.parseJwtExpirationTime`: matches
`/^(\d+)([smhdwy])$/` and scales by the unit table, defaulting to 7 days
(604800 s) when the regex does not match. -/
def parseJwtExpirationTime (expiresIn : String) : Nat :=
  let cs := expiresIn.data
  match cs.getLast? with
  | none => 60 * 60 * 24 * 7
  | some u =>
    let digits := cs.dropLast
    if digits ≠ [] ∧ digits.all Char.isDigit then
      match unitSeconds u with
      | some k => digitsToNat digits * k
      | none => 60 * 60 * 24 * 7
    else 60 * 60 * 24 * 7

/-- `prisma.refreshToken.findUnique({ where: { token } })`. -/
def findUniqueToken (store : RTStore) (token : String) : Option RTRecord :=
  store.find? (fun r => r.token == token)

/-- `RefreshTokenService.revokeAllUserTokens`: `updateMany` setting
`isRevoked` on every record of the user. -/
def revokeAllUserTokens (store : RTStore) (userId : Nat) : RTStore :=
  store.map (fun r => if r.userId == userId then { r with isRevoked := true } else r)

/-- `RefreshTokenService.validateRefreshToken`.  Returns the thrown
exception or the record, together with the store (which the revoked branch
mutates before throwing). -/
def validateRefreshToken (now : Nat) (store : RTStore) (token : String) :
    Except AppError RTRecord × RTStore :=
  match findUniqueToken store token with
  | none => (.error (.unauthorized "無効なリフレッシュトークンです"), store)
  | some r =>
    if r.isRevoked then
      (.error (.unauthorized "リフレッシュトークンが無効化されています"),
       revokeAllUserTokens store r.userId)
    else if decide (now > r.expiresAt) then
      (.error (.unauthorized "リフレッシュトークンの有効期限が切れています"), store)
    else
      (.ok r, store)

/-- `prisma.refreshToken.update({ where: { token }, data: { isRevoked: true } })`:
throws Prisma `P2025` when no record has that token. -/
def prismaRevokeByToken (store : RTStore) (token : String) :
    Except AppError RTStore :=
  if store.any (fun r => r.token == token) then
    .ok (store.map (fun r => if r.token == token then { r with isRevoked := true } else r))
  else .error (.dbError "P2025")

/-- `prisma.refreshToken.create`: throws Prisma `P2002` when the `@unique`
`token` column already holds that value. -/
def prismaCreateToken (store : RTStore) (r : RTRecord) :
    Except AppError RTStore :=
  if store.any (fun x => x.token == r.token) then .error (.dbError "P2002")
  else .ok (store ++ [r])

/-- `prisma.$transaction`: run the body; on error roll the store back. -/
def prismaTransaction {α : Type} (store : RTStore)
    (body : RTStore → Except AppError (α × RTStore)) :
    Except AppError α × RTStore :=
  match body store with
  | .error e => (.error e, store)
  | .ok (a, s') => (.ok a, s')

/-- `RefreshTokenService.revokeRefreshToken` (no transaction, no catch). -/
def revokeRefreshToken (store : RTStore) (token : String) :
    Except AppError RTStore :=
  prismaRevokeByToken store token

/-- The fresh record built by `createRefreshToken` / the create step of
`rotateRefreshToken`: expiry `now + ttl·1000` ms, `isRevoked` defaulted. -/
def newRefreshRecord (now ttlSeconds userId : Nat) (token : String) : RTRecord :=
  { token := token, userId := userId, expiresAt := now + ttlSeconds * 1000,
    isRevoked := false }

/-- `RefreshTokenService.createRefreshToken`: TTL from
`jwt.refreshExpiresIn` (`|| '7d'`), parsed, then a plain create. -/
def createRefreshToken (now : Nat) (cfgRefreshExpiresIn : Option String)
    (store : RTStore) (userId : Nat) (token : String) :
    Except AppError RTRecord × RTStore :=
  let ttl := parseJwtExpirationTime (jsOrStr cfgRefreshExpiresIn "7d")
  let r := newRefreshRecord now ttl userId token
  match prismaCreateToken store r with
  | .error e => (.error e, store)
  | .ok s' => (.ok r, s')

/-- `RefreshTokenService.rotateRefreshToken`: inside one `$transaction`,
revoke the old token then create the new one. -/
def rotateRefreshToken (now : Nat) (cfgRefreshExpiresIn : Option String)
    (store : RTStore) (token : String) (userId : Nat) (newToken : String) :
    Except AppError RTRecord × RTStore :=
  prismaTransaction store (fun s0 =>
    match prismaRevokeByToken s0 token with
    | .error e => .error e
    | .ok s1 =>
      let ttl := parseJwtExpirationTime (jsOrStr cfgRefreshExpiresIn "7d")
      let r := newRefreshRecord now ttl userId newToken
      match prismaCreateToken s1 r with
      | .error e => .error e
      | .ok s2 => .ok (r, s2))

/-- The JWT payload the auth service signs and verifies (`sub` is the user
id; the optional extra claims play no role in the flows below). -/
structure JwtPayload where
  sub : Nat
  deriving Repr, DecidableEq

/-- `UsersService.findByEmailOrUsername`: early return when both arguments
are falsy, else a `findFirst` by email (when truthy) whose hit is returned
at once, else a `findFirst` by username (when truthy), else `null`. -/
def findByEmailOrUsername (users : List UserRec)
    (email username : Option String) : Option UserRec :=
  if truthyStr email = false ∧ truthyStr username = false then
    none
  else
    let byEmail :=
      if truthyStr email then users.find? (fun u => some u.email == email)
      else none
    match byEmail with
    | some u => some u
    | none =>
      if truthyStr username then users.find? (fun u => some u.username == username)
      else none

/-- The single message of `AuthService.refreshTokens`'s catch-all. -/
def genericRefreshMsg : String := "無効または期限切れのリフレッシュトークンです"

/-- `AuthService.refreshTokens`.  The JWT verifier and the freshly signed
token pair are parameters (the `@nestjs/jwt` collaborator): `verify` models
`jwtService.verify` with the refresh secret, `newAccess`/`newRefresh` the
output of `generateTokens`.  The surrounding `try/catch` collapses every
failure to one `UnauthorizedException`; store mutations already awaited
before the throw (the revoke-all of `validateRefreshToken`) persist. -/
def refreshTokens (verify : String → Except Unit JwtPayload)
    (now : Nat) (cfgRefreshExpiresIn : Option String) (store : RTStore)
    (refreshToken : String) (newAccess newRefresh : String) :
    Except AppError (String × String) × RTStore :=
  match verify refreshToken with
  | .error _ => (.error (.unauthorized genericRefreshMsg), store)
  | .ok payload =>
    match validateRefreshToken now store refreshToken with
    | (.error _, s1) => (.error (.unauthorized genericRefreshMsg), s1)
    | (.ok entity, s1) =>
      if payload.sub ≠ entity.userId then
        (.error (.unauthorized genericRefreshMsg), s1)
      else
        match rotateRefreshToken now cfgRefreshExpiresIn s1 refreshToken
            entity.userId newRefresh with
        | (.error _, s2) => (.error (.unauthorized genericRefreshMsg), s2)
        | (.ok _, s2) => (.ok (newAccess, newRefresh), s2)

/-- The `{ success, message }` body `AuthService.logout` resolves with. -/
structure LogoutResult where
  success : Bool
  message : String
  deriving Repr, DecidableEq

/-- `AuthService.logout`: revoke the token; the `catch` swallows any
failure and still resolves with the same success body (idempotent
logout). -/
def logout (store : RTStore) (refreshToken : String) :
    LogoutResult × RTStore :=
  match revokeRefreshToken store refreshToken with
  | .ok s' => ({ success := true, message := "ログアウトしました" }, s')
  | .error _ => ({ success := true, message := "ログアウトしました" }, store)

/-- The response body of `PasswordResetService.generateResetToken`
(`token`/`userId` are the optional development-only fields). -/
structure GenResetResponse where
  message : String
  tokenField : Option String
  userIdField : Option Nat
  deriving Repr, DecidableEq

/-- One `mailService.sendPasswordResetEmail(email, token, username)` call. -/
structure MailMessage where
  recipient : String
  token : String
  username : String
  deriving Repr, DecidableEq

/-- `PasswordResetService.generateResetToken`.  `cfg` models
`configService.get<number>` as a key-value map (the source reads the key
`'auth.pßasswordResetExpiresInHours'`, ß included); `freshTok` is the
`randomBytes(32).toString('hex')` output.  Returns the response, the
`PasswordResetToken` table, and the mail calls issued. -/
def generateResetToken (cfg : String → Option Nat) (now : Nat)
    (freshTok : String) (users : List UserRec) (st : List PRRecord)
    (email : String) :
    Except AppError GenResetResponse × List PRRecord × List MailMessage :=
  match findByEmailOrUsername users (some email) none with
  | none =>
    (.ok { message := "パスワードリセット手順が送信されました（該当するアカウントが存在する場合）",
           tokenField := none, userIdField := none }, st, [])
  | some user =>
    let expiresInHours := jsOrNat (cfg "auth.pßasswordResetExpiresInHours") 1
    let expiresAt := now + expiresInHours * 3600000
    let st1 := st.filter (fun r => !(r.userId == user.id))
    let newRec : PRRecord := { userId := user.id, token := freshTok, expiresAt := expiresAt }
    if st1.any (fun r => r.token == freshTok) then
      (.error (.dbError "P2002"), st1, [])
    else
      (.ok { message := "パスワードリセット手順が送信されました",
             tokenField := some freshTok, userIdField := some user.id },
       st1 ++ [newRec],
       [{ recipient := user.email, token := freshTok, username := user.username }])

/-- `PasswordResetService.validateResetToken`: true iff the token exists
and `expiresAt < now` is false. -/
def validateResetToken (now : Nat) (st : List PRRecord) (token : String) : Bool :=
  match st.find? (fun r => r.token == token) with
  | none => false
  | some r => !(decide (r.expiresAt < now))

/-- `PasswordResetService.resetPassword`.  `newHash` is the bcrypt output
for the new password.  The expired branch deletes the stale row before
throwing; the success branch updates the password hash and deletes the row
inside one `$transaction` (rolled back if the user row is missing). -/
def resetPassword (now : Nat) (users : List UserRec) (st : List PRRecord)
    (token : String) (newHash : String) :
    Except AppError String × List UserRec × List PRRecord :=
  match st.find? (fun r => r.token == token) with
  | none => (.error (.notFound "無効または期限切れのトークンです"), users, st)
  | some rt =>
    if decide (rt.expiresAt < now) then
      (.error (.badRequest "トークンの有効期限が切れています"), users, st.erase rt)
    else
      if users.any (fun u => u.id == rt.userId) then
        (.ok "パスワードが正常にリセットされました",
         users.map (fun u => if u.id == rt.userId then { u with passwordHash := newHash } else u),
         st.erase rt)
      else
        (.error (.dbError "P2025"), users, st)

/-- `request.user` as the roles guard reads it: the three candidate id
fields of the JWT strategy's return value. -/
structure GuardUserInfo where
  userIdField : Option Nat
  subField : Option Nat
  idField : Option Nat
  deriving Repr, DecidableEq

/-- The decision of `RolesGuard.canActivate`: `true`, or a thrown
exception. -/
inductive GuardResult where
  | allow
  | unauthorized (msg : String)
  | forbidden (msg : String)
  deriving Repr, DecidableEq

/-- `RolesGuard.getUserRoles`: guard `if (!userId) return []`, else the
role names joined through the `UserRole` table (modelled as
userId-roleName pairs). -/
def getUserRoles (assignments : List (Nat × String)) (userId : Nat) :
    List String :=
  if userId == 0 then []
  else (assignments.filter (fun a => a.1 == userId)).map (fun a => a.2)

/-- `RolesGuard.canActivate`: required roles absent or empty allow all;
a missing user or an id chain resolving to `undefined` throws
Unauthorized; a user holding none of the required roles throws
Forbidden. -/
def canActivate (assignments : List (Nat × String))
    (requiredRoles : Option (List String)) (user : Option GuardUserInfo) :
    GuardResult :=
  match requiredRoles with
  | none => .allow
  | some req =>
    if req.isEmpty then .allow
    else
      match user with
      | none => .unauthorized "認証が必要です"
      | some u =>
        match jsOrOpt (jsOrOpt u.userIdField u.subField) u.idField with
        | none => .unauthorized "有効なユーザーIDがありません"
        | some uid =>
          let userRoles := getUserRoles assignments uid
          if req.any (fun role => userRoles.contains role) then .allow
          else .forbidden "このアクションを実行する権限がありません"

/-! ## Claims -/

/-- C6: `parseJwtExpirationTime` scales the numeric value by the unit table
s=1, m=60, h=3600, d=86400, w=604800, y=31536000 on a `<digits><unit>`
input whose unit the table holds, and yields the 7-day default 604800 s on
every other input. -/
theorem parseJwtExpirationTime_spec (s : String) :
    (∀ (ds : List Char) (u : Char) (k : Nat),
       s.data = ds ++ [u] → ds ≠ [] → ds.all Char.isDigit = true →
       unitSeconds u = some k →
       parseJwtExpirationTime s = digitsToNat ds * k) ∧
    ((¬ ∃ (ds : List Char) (u : Char) (k : Nat),
        s.data = ds ++ [u] ∧ ds ≠ [] ∧ ds.all Char.isDigit = true ∧
        unitSeconds u = some k) →
       parseJwtExpirationTime s = 604800) ∧
    unitSeconds 's' = some 1 ∧ unitSeconds 'm' = some 60 ∧
    unitSeconds 'h' = some 3600 ∧ unitSeconds 'd' = some 86400 ∧
    unitSeconds 'w' = some 604800 ∧ unitSeconds 'y' = some 31536000 := by
  refine ⟨?_, ?_, rfl, rfl, rfl, rfl, rfl, rfl⟩
  · intro ds u k h1 h2 h3 h4
    unfold parseJwtExpirationTime
    rw [h1]
    simp only [List.getLast?_concat, List.dropLast_concat, ne_eq, h3, and_true, h4]
    rw [if_pos h2]
  · intro h
    unfold parseJwtExpirationTime
    rcases List.eq_nil_or_concat s.data with hnil | ⟨ds, u, hcat⟩
    · rw [hnil]; rfl
    · rw [List.concat_eq_append] at hcat
      rw [hcat]
      simp only [List.getLast?_concat, List.dropLast_concat, ne_eq]
      by_cases hd : ds ≠ [] ∧ ds.all Char.isDigit = true
      · rw [if_pos (by simpa using hd)]
        cases hk : unitSeconds u with
        | none => rfl
        | some k => exact absurd ⟨ds, u, k, hcat, hd.1, hd.2, hk⟩ h
      · rw [if_neg (by simpa using hd)]

/-- C6 witness: `"15m"` parses to 900 s and `"10x"` falls back to the
7-day default. -/
theorem parseJwtExpirationTime_spec_witness :
    parseJwtExpirationTime "15m" = 900 ∧ parseJwtExpirationTime "10x" = 604800 := by
  constructor
  · have h := (parseJwtExpirationTime_spec "15m").1 ['1', '5'] 'm' 60 rfl
      (by decide) (by decide) rfl
    simpa [digitsToNat] using h
  · exact (parseJwtExpirationTime_spec "10x").2.1 (by
      rintro ⟨ds, u, k, hcat, -, -, hk⟩
      have hu : u = 'x' := by
        have := List.getLast?_concat (l := ds) (a := u)
        rw [← hcat] at this
        simpa using this.symm
      rw [hu] at hk
      simp [unitSeconds] at hk)

/-- C8: `AuthService.logout` resolves with the same success body on every
input — unknown or already-revoked tokens included — and logging out twice
with the same token succeeds both times. -/
theorem logout_always_succeeds (store : RTStore) (tok : String) :
    (logout store tok).1 = { success := true, message := "ログアウトしました" } ∧
    (logout (logout store tok).2 tok).1 =
      { success := true, message := "ログアウトしました" } := by
  have h : ∀ st : RTStore,
      (logout st tok).1 = { success := true, message := "ログアウトしました" } := by
    intro st
    unfold logout
    cases revokeRefreshToken st tok <;> rfl
  exact ⟨h store, h _⟩

/-- C1: `validateRefreshToken` fails with the not-found Unauthorized
message when no record carries the token; on a revoked record it first
revokes every record of the owning user (the returned store already
reflects the revoke-all when the failure is reported) and fails with the
revoked message; past expiry it fails with the expiry message (distinct
from the not-found one); otherwise it returns the record and leaves the
store unchanged. -/
theorem validateRefreshToken_spec (now : Nat) (store : RTStore) (token : String) :
    ((∀ r ∈ store, r.token ≠ token) →
       validateRefreshToken now store token =
         (.error (.unauthorized "無効なリフレッシュトークンです"), store)) ∧
    (∀ r, findUniqueToken store token = some r →
       (r.isRevoked = true →
          (validateRefreshToken now store token).1 =
            .error (.unauthorized "リフレッシュトークンが無効化されています") ∧
          (validateRefreshToken now store token).2 =
            revokeAllUserTokens store r.userId ∧
          (∀ x ∈ (validateRefreshToken now store token).2,
             x.userId = r.userId → x.isRevoked = true)) ∧
       (r.isRevoked = false → now > r.expiresAt →
          validateRefreshToken now store token =
            (.error (.unauthorized "リフレッシュトークンの有効期限が切れています"), store) ∧
          AppError.unauthorized "リフレッシュトークンの有効期限が切れています" ≠
            AppError.unauthorized "無効なリフレッシュトークンです") ∧
       (r.isRevoked = false → ¬ now > r.expiresAt →
          validateRefreshToken now store token = (.ok r, store))) := by
  constructor
  · intro habs
    have hnone : findUniqueToken store token = none := by
      unfold findUniqueToken
      rw [List.find?_eq_none]
      intro x hx
      simpa using habs x hx
    unfold validateRefreshToken
    rw [hnone]
  · intro r hr
    refine ⟨?_, ?_, ?_⟩
    · intro hrev
      have hval : validateRefreshToken now store token =
          (.error (.unauthorized "リフレッシュトークンが無効化されています"),
           revokeAllUserTokens store r.userId) := by
        unfold validateRefreshToken
        rw [hr]
        simp [hrev]
      refine ⟨by rw [hval], by rw [hval], ?_⟩
      rw [hval]
      intro x hx hxuid
      unfold revokeAllUserTokens at hx
      rcases List.mem_map.mp hx with ⟨y, _, hy⟩
      by_cases hc : (y.userId == r.userId) = true
      · rw [if_pos hc] at hy
        rw [← hy]
      · rw [if_neg hc] at hy
        subst hy
        exact absurd (beq_iff_eq.mpr hxuid) hc
    · intro hrev hexp
      refine ⟨?_, by simp⟩
      unfold validateRefreshToken
      rw [hr]
      simp [hrev, hexp]
    · intro hrev hexp
      unfold validateRefreshToken
      rw [hr]
      simp [hrev, hexp]

/-- C1 witness: on a store holding a revoked record `"t"` and an active
record `"u"` of the same user, validating `"t"` reports the revoked error
and the returned store has the second record revoked too. -/
theorem validateRefreshToken_spec_witness :
    (validateRefreshToken 0
        [⟨"t", 1, 100, true⟩, ⟨"u", 1, 100, false⟩] "t").1 =
      .error (.unauthorized "リフレッシュトークンが無効化されています") ∧
    (∀ x ∈ (validateRefreshToken 0
        [⟨"t", 1, 100, true⟩, ⟨"u", 1, 100, false⟩] "t").2,
       x.userId = 1 → x.isRevoked = true) := by
  have h := ((validateRefreshToken_spec 0
      [⟨"t", 1, 100, true⟩, ⟨"u", 1, 100, false⟩] "t").2
      ⟨"t", 1, 100, true⟩ rfl).1 rfl
  exact ⟨h.1, h.2.2⟩

/-- Inverting a successful `prisma.refreshToken.update` on the old token:
the result is the pointwise revocation and the token was present. -/
theorem prismaRevokeByToken_ok (store : RTStore) (token : String) (s1 : RTStore)
    (h : prismaRevokeByToken store token = .ok s1) :
    s1 = store.map
        (fun x => if x.token == token then { x with isRevoked := true } else x) ∧
    ∃ y ∈ store, y.token = token := by
  unfold prismaRevokeByToken at h
  by_cases h1 : store.any (fun r => r.token == token) = true
  · rw [if_pos h1] at h
    injection h with h'
    refine ⟨h'.symm, ?_⟩
    rcases List.any_eq_true.mp h1 with ⟨y, hy, hyt⟩
    exact ⟨y, hy, beq_iff_eq.mp hyt⟩
  · rw [if_neg h1] at h
    cases h

/-- Inverting a successful `prisma.refreshToken.create`: the result is the
append and the token column did not hold the value yet. -/
theorem prismaCreateToken_ok (store : RTStore) (r : RTRecord) (s' : RTStore)
    (h : prismaCreateToken store r = .ok s') :
    s' = store ++ [r] ∧ ∀ x ∈ store, x.token ≠ r.token := by
  unfold prismaCreateToken at h
  by_cases h1 : store.any (fun x => x.token == r.token) = true
  · rw [if_pos h1] at h
    cases h
  · rw [if_neg h1] at h
    injection h with h'
    refine ⟨h'.symm, ?_⟩
    intro x hx hxt
    exact h1 (List.any_eq_true.mpr ⟨x, hx, beq_iff_eq.mpr hxt⟩)

/-- C2: `rotateRefreshToken` is atomic — either it fails and the store is
exactly the input store (neither the revocation nor the insertion
applied), or it succeeds and the resulting store both revokes every record
carrying the old token and holds the freshly inserted active record for
the new token, with all other records unchanged. -/
theorem rotateRefreshToken_atomic (now : Nat) (cfg : Option String)
    (store : RTStore) (token : String) (userId : Nat) (newToken : String) :
    (∃ e, rotateRefreshToken now cfg store token userId newToken =
        (.error e, store)) ∨
    (∃ r s',
        rotateRefreshToken now cfg store token userId newToken = (.ok r, s') ∧
        s' = store.map
            (fun x => if x.token == token then { x with isRevoked := true } else x)
          ++ [r] ∧
        r.token = newToken ∧ r.userId = userId ∧ r.isRevoked = false ∧
        (∀ x ∈ s', x.token = token → x.isRevoked = true)) := by
  cases hrev : prismaRevokeByToken store token with
  | error e =>
    left
    exact ⟨e, by unfold rotateRefreshToken prismaTransaction; simp [hrev]⟩
  | ok s1 =>
    cases hcre : prismaCreateToken s1
        (newRefreshRecord now (parseJwtExpirationTime (jsOrStr cfg "7d"))
          userId newToken) with
    | error e =>
      left
      exact ⟨e, by unfold rotateRefreshToken prismaTransaction; simp [hrev, hcre]⟩
    | ok s2 =>
      right
      obtain ⟨hs1, y, hy, hyt⟩ := prismaRevokeByToken_ok store token s1 hrev
      obtain ⟨hs2, hfresh⟩ := prismaCreateToken_ok s1 _ s2 hcre
      refine ⟨newRefreshRecord now (parseJwtExpirationTime (jsOrStr cfg "7d"))
          userId newToken, s2,
        by unfold rotateRefreshToken prismaTransaction; simp [hrev, hcre],
        by rw [hs2, hs1], rfl, rfl, rfl, ?_⟩
      intro x hx hxt
      rw [hs2] at hx
      rcases List.mem_append.mp hx with hx1 | hx1
      · rw [hs1] at hx1
        rcases List.mem_map.mp hx1 with ⟨z, _, hzx⟩
        by_cases hc : (z.token == token) = true
        · rw [if_pos hc] at hzx
          rw [← hzx]
        · rw [if_neg hc] at hzx
          subst hzx
          exact absurd (beq_iff_eq.mpr hxt) hc
      · have hxr : x = newRefreshRecord now
            (parseJwtExpirationTime (jsOrStr cfg "7d")) userId newToken := by
          simpa using hx1
        have hyim : ({ y with isRevoked := true } : RTRecord) ∈ s1 := by
          rw [hs1]
          exact List.mem_map.mpr ⟨y, hy, by rw [if_pos (beq_iff_eq.mpr hyt)]⟩
        have hne : y.token ≠ newToken :=
          hfresh ({ y with isRevoked := true }) hyim
        rw [hyt] at hne
        rw [hxr] at hxt
        exact absurd (show (token : String) = newToken from hxt.symm) hne

/-- Inverting a successful `validateRefreshToken`: the returned record is
the `findUnique` hit and the store is untouched. -/
theorem validateRefreshToken_ok_inv (now : Nat) (store : RTStore) (token : String)
    (e : RTRecord) (s : RTStore)
    (h : validateRefreshToken now store token = (.ok e, s)) :
    findUniqueToken store token = some e ∧ s = store := by
  unfold validateRefreshToken at h
  cases hf : findUniqueToken store token with
  | none =>
    rw [hf] at h
    simp at h
  | some r =>
    rw [hf] at h
    cases h1 : r.isRevoked with
    | true => simp [h1] at h
    | false =>
      simp only [h1, Bool.false_eq_true, if_false] at h
      by_cases h2 : now > r.expiresAt
      · simp [h2] at h
      · have h2' : decide (now > r.expiresAt) = false := decide_eq_false h2
        rw [h2'] at h
        simp only [Bool.false_eq_true, if_false, Prod.mk.injEq,
          Except.ok.injEq] at h
        obtain ⟨h3, h4⟩ := h
        subst h3
        exact ⟨rfl, h4.symm⟩

/-- C3: in `refreshTokens`, a JWT whose subject differs from the owning
userId of the matching store record always fails, and every failure of any
sub-step surfaces as the one generic Unauthorized message. -/
theorem refreshTokens_spec (verify : String → Except Unit JwtPayload)
    (now : Nat) (cfg : Option String) (store : RTStore) (tok na nr : String) :
    (∀ p r, verify tok = .ok p → findUniqueToken store tok = some r →
       p.sub ≠ r.userId →
       ∃ e, (refreshTokens verify now cfg store tok na nr).1 = .error e) ∧
    (∀ e, (refreshTokens verify now cfg store tok na nr).1 = .error e →
       e = .unauthorized genericRefreshMsg) := by
  constructor
  · intro p r hv hf hne
    unfold refreshTokens
    rw [hv]
    rcases hval : validateRefreshToken now store tok with ⟨res, s1⟩
    cases res with
    | error err => exact ⟨.unauthorized genericRefreshMsg, by simp [hval]⟩
    | ok entity =>
      obtain ⟨hf', -⟩ := validateRefreshToken_ok_inv now store tok entity s1 hval
      have hent : entity = r := by
        rw [hf'] at hf
        exact Option.some.injEq .. ▸ hf
      subst hent
      simp only [hval]
      rw [if_pos hne]
      exact ⟨.unauthorized genericRefreshMsg, rfl⟩
  · intro e he
    unfold refreshTokens at he
    split at he
    · simpa using he.symm
    · split at he
      · simpa using he.symm
      · split at he
        · simpa using he.symm
        · split at he
          · simpa using he.symm
          · simp at he

/-- C3 witness: a store record owned by user 1 presented with a JWT whose
subject is 2 makes `refreshTokens` fail, and the failure carries the
generic message. -/
theorem refreshTokens_spec_witness :
    (∃ e, (refreshTokens (fun _ => .ok ⟨2⟩) 0 none
        [⟨"t", 1, 100, false⟩] "t" "na" "nr").1 = .error e) ∧
    (refreshTokens (fun _ => .ok ⟨2⟩) 0 none
        [⟨"t", 1, 100, false⟩] "t" "na" "nr").1 =
      .error (.unauthorized genericRefreshMsg) := by
  obtain ⟨e, he⟩ := (refreshTokens_spec (fun _ => .ok ⟨2⟩) 0 none
      [⟨"t", 1, 100, false⟩] "t" "na" "nr").1 ⟨2⟩ ⟨"t", 1, 100, false⟩
      rfl rfl (by decide)
  have hgen := (refreshTokens_spec (fun _ => .ok ⟨2⟩) 0 none
      [⟨"t", 1, 100, false⟩] "t" "na" "nr").2 e he
  exact ⟨⟨e, he⟩, hgen ▸ he⟩

/-- C4: evaluating `generateResetToken` at a one-user store shows the
existing-email and unknown-email responses carry different messages, and
the existing-email response contains the generated reset token value (and
the owning user id) — the two runs are distinguishable and the token
leaks into the response. -/
theorem generateResetToken_response_leaks :
    (generateResetToken (fun _ => none) 0 "tok"
        [⟨1, "a@x.com", "alice", "h"⟩] [] "a@x.com").1 =
      .ok { message := "パスワードリセット手順が送信されました",
            tokenField := some "tok", userIdField := some 1 } ∧
    (generateResetToken (fun _ => none) 0 "tok"
        [⟨1, "a@x.com", "alice", "h"⟩] [] "b@x.com").1 =
      .ok { message := "パスワードリセット手順が送信されました（該当するアカウントが存在する場合）",
            tokenField := none, userIdField := none } ∧
    ("パスワードリセット手順が送信されました" : String) ≠
      "パスワードリセット手順が送信されました（該当するアカウントが存在する場合）" :=
  ⟨rfl, rfl, by decide⟩

/-- C5: with `auth.passwordResetExpiresInHours` configured to 5, the
persisted reset token still expires one hour after `now` — the service
reads the misspelled key `auth.pßasswordResetExpiresInHours`, so the
configured value is ignored. -/
theorem generateResetToken_expiry_ignores_config :
    (generateResetToken
        (fun k => if k == "auth.passwordResetExpiresInHours" then some 5 else none)
        0 "tok" [⟨1, "a@x.com", "alice", "h"⟩] [] "a@x.com").2.1 =
      [{ userId := 1, token := "tok", expiresAt := 3600000 }] ∧
    (3600000 : Nat) ≠ 5 * 3600000 :=
  ⟨rfl, by decide⟩

/-- Spec §3 invariant: at most one live reset token per user — no two
rows of the `PasswordResetToken` table share a `userId`. -/
def atMostOneResetTokenPerUser (st : List PRRecord) : Prop :=
  st.Pairwise (fun a b => a.userId ≠ b.userId)

/-- Inverting a successful `resetPassword`: the hit record was present and
unexpired, the password hash was rewritten, and the resulting token table
is the original minus the consumed row. -/
theorem resetPassword_ok_inv (now : Nat) (users : List UserRec)
    (st : List PRRecord) (token newHash : String) (msg : String)
    (users' : List UserRec) (st' : List PRRecord)
    (h : resetPassword now users st token newHash = (.ok msg, users', st')) :
    ∃ rt, st.find? (fun r => r.token == token) = some rt ∧
      st' = st.erase rt ∧
      users' = users.map
        (fun u => if u.id == rt.userId then { u with passwordHash := newHash } else u) := by
  unfold resetPassword at h
  split at h
  · simp at h
  · rename_i rt hfind
    split at h
    · simp at h
    · split at h
      · simp only [Prod.mk.injEq, Except.ok.injEq] at h
        exact ⟨rt, hfind, h.2.2.symm, h.2.1.symm⟩
      · simp at h

/-- C7: the at-most-one-reset-token-per-user invariant is preserved by
`generateResetToken` (which deletes the user's prior tokens before the
create) and by `resetPassword` (which only ever deletes rows); moreover
a successful `resetPassword` removes the consumed token from the table,
so an immediately repeated call with the same token fails `NotFound`
(single use). -/
theorem resetFlow_invariant (cfg : String → Option Nat) (now : Nat)
    (freshTok email token newHash : String) (users : List UserRec)
    (st : List PRRecord)
    (hinv : atMostOneResetTokenPerUser st)
    (huniq : (st.map (fun r => r.token)).Nodup) :
    atMostOneResetTokenPerUser
      (generateResetToken cfg now freshTok users st email).2.1 ∧
    atMostOneResetTokenPerUser
      (resetPassword now users st token newHash).2.2 ∧
    (∀ msg users' st',
       resetPassword now users st token newHash = (.ok msg, users', st') →
       (∀ r ∈ st', r.token ≠ token) ∧
       (resetPassword now users' st' token newHash).1 =
         .error (.notFound "無効または期限切れのトークンです")) := by
  refine ⟨?_, ?_, ?_⟩
  · cases huser : findByEmailOrUsername users (some email) none with
    | none =>
      simp only [generateResetToken, huser]
      exact hinv
    | some user =>
      simp only [generateResetToken, huser]
      split
      · exact hinv.sublist (List.filter_sublist st)
      · refine List.pairwise_append.mpr ⟨hinv.sublist (List.filter_sublist st),
          List.pairwise_singleton .. , ?_⟩
        intro a ha b hb
        rw [List.mem_singleton.mp hb]
        have ha' := List.mem_filter.mp ha
        simpa using ha'.2
  · unfold resetPassword
    split
    · exact hinv
    · rename_i rt hfind
      split
      · exact hinv.sublist (List.erase_sublist rt st)
      · split
        · exact hinv.sublist (List.erase_sublist rt st)
        · exact hinv
  · intro msg users' st' h
    obtain ⟨rt, hfind, hst', -⟩ :=
      resetPassword_ok_inv now users st token newHash msg users' st' h
    have hrtmem : rt ∈ st := List.mem_of_find?_eq_some hfind
    have hrttok : rt.token = token := by
      have := List.find?_some hfind
      simpa using this
    have hnodupSt : st.Nodup := List.Nodup.of_map _ huniq
    have habs : ∀ r ∈ st', r.token ≠ token := by
      intro r hr hrt
      rw [hst'] at hr
      have hrmem : r ∈ st := (st.erase_sublist rt).mem hr
      have hrne : r ≠ rt := by
        intro hee
        rw [hee] at hr
        exact (List.Nodup.not_mem_erase hnodupSt) hr
      have := List.inj_on_of_nodup_map huniq hrmem hrtmem
        (by rw [hrt, hrttok])
      exact hrne this
    refine ⟨habs, ?_⟩
    have hnone : st'.find? (fun r => r.token == token) = none := by
      rw [List.find?_eq_none]
      intro x hx
      simpa using habs x hx
    unfold resetPassword
    rw [hnone]

/-- C7 witness: after a successful reset consuming token `"t"`, an
immediately repeated `resetPassword` with the same token fails
`NotFound`. -/
theorem resetFlow_invariant_witness :
    (resetPassword 0 [⟨1, "a", "alice", "nh"⟩] [] "t" "nh").1 =
      .error (.notFound "無効または期限切れのトークンです") :=
  ((resetFlow_invariant (fun _ => none) 0 "f" "e" "t" "nh"
      [⟨1, "a", "alice", "h"⟩] [⟨1, "t", 100⟩]
      (List.pairwise_singleton ..) (by decide)).2.2
    "パスワードが正常にリセットされました" [⟨1, "a", "alice", "nh"⟩] [] rfl).2

/-- C9: `RolesGuard.canActivate` allows when no roles are required (absent
or empty list); with a non-empty requirement it throws Unauthorized when
`request.user` is missing or none of the three id fields yields a usable
id, allows when the user holds one of the required role names, and throws
Forbidden otherwise.  `hpos` reflects the schema: `User.id` is an
autoincrement starting at 1, so no role assignment carries userId 0. -/
theorem rolesGuard_spec (assignments : List (Nat × String))
    (req : List String) (user : Option GuardUserInfo)
    (hpos : ∀ a ∈ assignments, a.1 ≠ 0) :
    (canActivate assignments none user = .allow) ∧
    (canActivate assignments (some []) user = .allow) ∧
    (req ≠ [] →
       canActivate assignments (some req) none = .unauthorized "認証が必要です") ∧
    (∀ u, req ≠ [] →
       jsOrOpt (jsOrOpt u.userIdField u.subField) u.idField = none →
       canActivate assignments (some req) (some u) =
         .unauthorized "有効なユーザーIDがありません") ∧
    (∀ u uid, req ≠ [] →
       jsOrOpt (jsOrOpt u.userIdField u.subField) u.idField = some uid →
       ((∃ role ∈ req, (uid, role) ∈ assignments) →
          canActivate assignments (some req) (some u) = .allow) ∧
       ((∀ role ∈ req, (uid, role) ∉ assignments) →
          canActivate assignments (some req) (some u) =
            .forbidden "このアクションを実行する権限がありません")) := by
  have hroles : ∀ uid role, role ∈ getUserRoles assignments uid ↔
      (uid, role) ∈ assignments := by
    intro uid role
    unfold getUserRoles
    by_cases h0 : uid == 0
    · rw [if_pos h0]
      have h0' : uid = 0 := by simpa using h0
      simp only [List.not_mem_nil, false_iff]
      intro hmem
      exact hpos (uid, role) hmem (by simpa using h0')
    · rw [if_neg h0]
      constructor
      · intro hmem
        rcases List.mem_map.mp hmem with ⟨a, ha, hval⟩
        have ha' := List.mem_filter.mp ha
        have h1 : a.1 = uid := by simpa using ha'.2
        have : a = (uid, role) := by
          rcases a with ⟨a1, a2⟩
          simp only at h1 hval
          rw [h1, hval]
        rw [← this]
        exact ha'.1
      · intro hmem
        exact List.mem_map.mpr ⟨(uid, role),
          List.mem_filter.mpr ⟨hmem, by simp⟩, rfl⟩
  refine ⟨rfl, rfl, ?_, ?_, ?_⟩
  · intro hreq
    simp only [canActivate]
    rw [if_neg (by simpa using hreq)]
  · intro u hreq hid
    simp only [canActivate]
    rw [if_neg (by simpa using hreq), hid]
  · intro u uid hreq hid
    constructor
    · intro ⟨role, hrole, hmem⟩
      simp only [canActivate]
      rw [if_neg (by simpa using hreq)]
      simp only [hid]
      have hany : (req.any fun role =>
          (getUserRoles assignments uid).contains role) = true :=
        List.any_eq_true.mpr ⟨role, hrole,
          show (getUserRoles assignments uid).contains role = true by
            simpa using (hroles uid role).mpr hmem⟩
      rw [if_pos hany]
    · intro hnone
      simp only [canActivate]
      rw [if_neg (by simpa using hreq)]
      simp only [hid]
      have hany : ¬ ((req.any fun role =>
          (getUserRoles assignments uid).contains role) = true) := by
        intro hany
        rcases List.any_eq_true.mp hany with ⟨role, hrole, hcontains⟩
        have : role ∈ getUserRoles assignments uid := by simpa using hcontains
        exact hnone role hrole ((hroles uid role).mp this)
      rw [if_neg hany]

/-- C9 witness: a user with role `admin` is allowed on an endpoint
requiring `admin`; the same user is denied Forbidden on one requiring
`root`; an empty requirement allows a role-less user. -/
theorem rolesGuard_spec_witness :
    canActivate [(1, "admin")] (some ["admin"])
      (some ⟨none, some 1, none⟩) = .allow ∧
    canActivate [(1, "admin")] (some ["root"])
      (some ⟨none, some 1, none⟩) = .forbidden "このアクションを実行する権限がありません" ∧
    canActivate [] (some []) (some ⟨none, some 1, none⟩) = .allow := by
  refine ⟨?_, ?_, ?_⟩
  · exact ((rolesGuard_spec [(1, "admin")] ["admin"]
      (some ⟨none, some 1, none⟩) (by decide)).2.2.2.2
      ⟨none, some 1, none⟩ 1 (by decide) rfl).1
      ⟨"admin", by decide, by decide⟩
  · exact ((rolesGuard_spec [(1, "admin")] ["root"]
      (some ⟨none, some 1, none⟩) (by decide)).2.2.2.2
      ⟨none, some 1, none⟩ 1 (by decide) rfl).2
      (by intro role hrole; simp at hrole; subst hrole; decide)
  · exact (rolesGuard_spec [] [] (some ⟨none, some 1, none⟩)
      (by simp)).2.1

/-- C10: with both arguments present and non-empty — `login` passes the
same `usernameOrEmail` string for both — `findByEmailOrUsername` returns
any user whose email matches, and consults the username lookup only when
no email matches; so when one user's email and a different user's
username both equal the input, the email owner is returned. -/
theorem findByEmailOrUsername_email_precedence (users : List UserRec)
    (s : String) (hs : s ≠ "") :
    (∀ u, users.find? (fun x => x.email == s) = some u →
       findByEmailOrUsername users (some s) (some s) = some u) ∧
    ((∀ u ∈ users, u.email ≠ s) →
       findByEmailOrUsername users (some s) (some s) =
         users.find? (fun x => x.username == s)) ∧
    (∀ u1 u2, users.find? (fun x => x.email == s) = some u1 →
       u2 ∈ users → u2.username = s →
       findByEmailOrUsername users (some s) (some s) = some u1 ∧
       u1.email = s) := by
  have htruthy : truthyStr (some s) = true := by simp [truthyStr, hs]
  have hcond : ¬(truthyStr (some s) = false ∧ truthyStr (some s) = false) := by
    simp [htruthy]
  have halign : (fun u : UserRec => some u.email == some s) =
      (fun x : UserRec => x.email == s) := rfl
  have halign2 : (fun u : UserRec => some u.username == some s) =
      (fun x : UserRec => x.username == s) := rfl
  have h1 : ∀ u, users.find? (fun x => x.email == s) = some u →
      findByEmailOrUsername users (some s) (some s) = some u := by
    intro u hf
    simp only [findByEmailOrUsername]
    rw [if_neg hcond, if_pos htruthy, halign, hf]
  refine ⟨h1, ?_, ?_⟩
  · intro hnone
    have hf : users.find? (fun x => x.email == s) = none :=
      List.find?_eq_none.mpr (fun x hx => by simpa using hnone x hx)
    simp only [findByEmailOrUsername]
    rw [if_neg hcond, if_pos htruthy, halign, hf, if_pos htruthy, halign2]
  · intro u1 u2 hf hmem husr
    exact ⟨h1 u1 hf, by simpa using List.find?_some hf⟩

/-- C10 witness: with user 1 owning email `"a@x.com"` and user 2 owning
username `"a@x.com"`, the lookup with that input returns user 1. -/
theorem findByEmailOrUsername_email_precedence_witness :
    findByEmailOrUsername
      [⟨1, "a@x.com", "alice", "h"⟩, ⟨2, "b@x.com", "a@x.com", "h"⟩]
      (some "a@x.com") (some "a@x.com") = some ⟨1, "a@x.com", "alice", "h"⟩ :=
  ((findByEmailOrUsername_email_precedence
      [⟨1, "a@x.com", "alice", "h"⟩, ⟨2, "b@x.com", "a@x.com", "h"⟩]
      "a@x.com" (by decide)).2.2 ⟨1, "a@x.com", "alice", "h"⟩
      ⟨2, "b@x.com", "a@x.com", "h"⟩ rfl (by decide) rfl).1

/-- C2 witness: rotating token `"t"` of user 1 to `"u"` on a one-record
store succeeds, the new record is active with the new token, and every
record still carrying the old token is revoked. -/
theorem rotateRefreshToken_atomic_witness :
    ∃ r s', rotateRefreshToken 0 none [⟨"t", 1, 99, false⟩] "t" 1 "u" =
        (.ok r, s') ∧ r.token = "u" ∧ r.isRevoked = false ∧
      (∀ x ∈ s', x.token = "t" → x.isRevoked = true) := by
  rcases rotateRefreshToken_atomic 0 none [⟨"t", 1, 99, false⟩] "t" 1 "u" with
    ⟨e, he⟩ | ⟨r, s', h1, h2, h3, h4, h5, h6⟩
  · have hcomp : (rotateRefreshToken 0 none [⟨"t", 1, 99, false⟩] "t" 1 "u").1 =
        .ok (newRefreshRecord 0 604800 1 "u") := rfl
    rw [he] at hcomp
    exact Except.noConfusion hcomp
  · exact ⟨r, s', h1, h3, h5, h6⟩
